import Mathlib

/-!
# Verification of the Ollama-OCR portable build pipeline

A shallow embedding of the build/packaging scripts of the Ollama-OCR
repository:

* `portable/build_portable_windows.py` — dependency ensurer, workspace
  cleaner, PyInstaller command builder, README/batch writers, support-file
  copier, zip archiver;
* `portable/portable_launcher.py` — runtime launcher (app locator and
  Streamlit invocation);
* `src/briefcase/platforms/windows/msi/create.py` — Windows launcher
  batch-file writer.

Filesystem state is modelled as a list of entries (path plus a directory
flag); paths are lists of components.  Subprocess and file-write side
effects are modelled as explicit values (effect traces, written contents,
`Except` for raised errors).
-/

set_option autoImplicit false
set_option maxRecDepth 16384

namespace OllamaOCR

/-- A filesystem path, as its list of components. -/
abbrev FPath := List String

/-- One filesystem object: its path and whether it is a directory. -/
structure FSEntry where
  path : FPath
  isDir : Bool
deriving DecidableEq, Repr

/-- A filesystem: the list of objects that exist. -/
abbrev FS := List FSEntry

/-- `Path.exists()`: some entry has exactly this path. -/
def fsExists (fs : FS) (p : FPath) : Bool :=
  fs.any (fun e => e.path == p)

/-- `shutil.rmtree(p)`: remove `p` and everything below it. -/
def rmtree (fs : FS) (p : FPath) : FS :=
  fs.filter (fun e => !(p.isPrefixOf e.path))

/-- `Path.unlink()`: remove the single object at exactly this path. -/
def unlink (fs : FS) (p : FPath) : FS :=
  fs.filter (fun e => e.path != p)

/-- Loop body of `_clean_previous_build`: `if path.exists(): shutil.rmtree(path)`. -/
def removeDirIfExists (fs : FS) (p : FPath) : FS :=
  if fsExists fs p then rmtree fs p else fs

/-- Final guard of `_clean_previous_build`: `if zip_path.exists(): zip_path.unlink()`. -/
def removeFileIfExists (fs : FS) (p : FPath) : FS :=
  if fsExists fs p then unlink fs p else fs

/-- `_clean_previous_build(dist_path, build_path, zip_path)` from
`portable/build_portable_windows.py`: for each of the two directories,
remove it recursively if it exists; then remove the zip file if it
exists.  (The source performs no `mkdir`: nothing is recreated.) -/
def clean_previous_build (fs : FS) (distPath buildPath zipPath : FPath) : FS :=
  removeFileIfExists ([distPath, buildPath].foldl removeDirIfExists fs) zipPath

theorem fsExists_eq_false_iff (fs : FS) (p : FPath) :
    fsExists fs p = false ↔ ∀ e ∈ fs, e.path ≠ p := by
  simp [fsExists, List.any_eq_false]

/-- Removing a subtree removes the root of the subtree. -/
theorem fsExists_rmtree_self (fs : FS) (p : FPath) :
    fsExists (rmtree fs p) p = false := by
  rw [fsExists_eq_false_iff]
  intro e he hep
  have hkeep := List.of_mem_filter he
  rw [hep] at hkeep
  have hpp : List.isPrefixOf p p = true := by simp
  simp [hpp] at hkeep

/-- Removing one path removes exactly that path. -/
theorem fsExists_unlink_self (fs : FS) (p : FPath) :
    fsExists (unlink fs p) p = false := by
  rw [fsExists_eq_false_iff]
  intro e he hep
  have hkeep := List.of_mem_filter he
  rw [hep] at hkeep
  simp at hkeep

/-- A path absent before `rmtree` is absent after it. -/
theorem fsExists_rmtree_of_false (fs : FS) (p q : FPath)
    (h : fsExists fs q = false) : fsExists (rmtree fs p) q = false := by
  rw [fsExists_eq_false_iff] at h ⊢
  intro e he
  exact h e (List.mem_of_mem_filter he)

/-- A path absent before `unlink` is absent after it. -/
theorem fsExists_unlink_of_false (fs : FS) (p q : FPath)
    (h : fsExists fs q = false) : fsExists (unlink fs p) q = false := by
  rw [fsExists_eq_false_iff] at h ⊢
  intro e he
  exact h e (List.mem_of_mem_filter he)

theorem fsExists_removeDirIfExists_self (fs : FS) (p : FPath) :
    fsExists (removeDirIfExists fs p) p = false := by
  unfold removeDirIfExists
  cases h : fsExists fs p with
  | false => simp [h]
  | true => simp [h, fsExists_rmtree_self]

theorem fsExists_removeDirIfExists_of_false (fs : FS) (p q : FPath)
    (h : fsExists fs q = false) :
    fsExists (removeDirIfExists fs p) q = false := by
  unfold removeDirIfExists
  cases hp : fsExists fs p with
  | false => simp [hp, h]
  | true => simp [hp, fsExists_rmtree_of_false fs p q h]

theorem fsExists_removeFileIfExists_self (fs : FS) (p : FPath) :
    fsExists (removeFileIfExists fs p) p = false := by
  unfold removeFileIfExists
  cases h : fsExists fs p with
  | false => simp [h]
  | true => simp [h, fsExists_unlink_self]

theorem fsExists_removeFileIfExists_of_false (fs : FS) (p q : FPath)
    (h : fsExists fs q = false) :
    fsExists (removeFileIfExists fs p) q = false := by
  unfold removeFileIfExists
  cases hp : fsExists fs p with
  | false => simp [hp, h]
  | true => simp [hp, fsExists_unlink_of_false fs p q h]

theorem removeDirIfExists_of_absent (fs : FS) (p : FPath)
    (h : fsExists fs p = false) : removeDirIfExists fs p = fs := by
  simp [removeDirIfExists, h]

theorem removeFileIfExists_of_absent (fs : FS) (p : FPath)
    (h : fsExists fs p = false) : removeFileIfExists fs p = fs := by
  simp [removeFileIfExists, h]

theorem clean_previous_build_eq (fs : FS) (d b z : FPath) :
    clean_previous_build fs d b z
      = removeFileIfExists (removeDirIfExists (removeDirIfExists fs d) b) z := rfl

/-- After the cleaner runs, the dist directory path is gone. -/
theorem fsExists_clean_dist (fs : FS) (d b z : FPath) :
    fsExists (clean_previous_build fs d b z) d = false := by
  rw [clean_previous_build_eq]
  exact fsExists_removeFileIfExists_of_false _ _ _
    (fsExists_removeDirIfExists_of_false _ _ _
      (fsExists_removeDirIfExists_self fs d))

/-- After the cleaner runs, the build directory path is gone. -/
theorem fsExists_clean_build (fs : FS) (d b z : FPath) :
    fsExists (clean_previous_build fs d b z) b = false := by
  rw [clean_previous_build_eq]
  exact fsExists_removeFileIfExists_of_false _ _ _
    (fsExists_removeDirIfExists_self _ b)

/-- After the cleaner runs, the zip path is gone. -/
theorem fsExists_clean_zip (fs : FS) (d b z : FPath) :
    fsExists (clean_previous_build fs d b z) z = false := by
  rw [clean_previous_build_eq]
  exact fsExists_removeFileIfExists_self _ z

/-- On a filesystem where none of the three paths exists, the cleaner is
the identity. -/
theorem clean_previous_build_of_absent (fs : FS) (d b z : FPath)
    (hd : fsExists fs d = false) (hb : fsExists fs b = false)
    (hz : fsExists fs z = false) :
    clean_previous_build fs d b z = fs := by
  rw [clean_previous_build_eq, removeDirIfExists_of_absent fs d hd,
    removeDirIfExists_of_absent fs b hb, removeFileIfExists_of_absent fs z hz]

/-- C2: the claim asserts that after `_clean_previous_build` returns, the
dist and build directories exist (recreated empty).  Counterexample: on a
filesystem holding only the dist directory, after the cleaner runs the
dist directory does not exist (and neither does the build directory) —
the source only deletes, it never recreates. -/
theorem clean_previous_build_no_recreate :
    fsExists (clean_previous_build [⟨["dist"], true⟩] ["dist"] ["build"] ["out.zip"]) ["dist"] = false
    ∧ fsExists (clean_previous_build [⟨["dist"], true⟩] ["dist"] ["build"] ["out.zip"]) ["build"] = false := by
  decide

/-- C2 (amended): for every filesystem, `_clean_previous_build` deletes the
dist directory, the build directory and the archive when present (each
guarded by an existence check), and after it returns none of the three
paths exists — the directories are not recreated. -/
theorem clean_previous_build_removes_all (fs : FS) (d b z : FPath) :
    fsExists (clean_previous_build fs d b z) d = false
    ∧ fsExists (clean_previous_build fs d b z) b = false
    ∧ fsExists (clean_previous_build fs d b z) z = false :=
  ⟨fsExists_clean_dist fs d b z, fsExists_clean_build fs d b z,
    fsExists_clean_zip fs d b z⟩

/-- C7: `_clean_previous_build` is idempotent on every filesystem —
running it twice in succession yields exactly the filesystem of a single
run, clean or dirty — and on an already-clean workspace (none of the
three paths exists) it is additionally the identity and raises no error
(it is a total function whose existence guards all fail). -/
theorem clean_previous_build_idempotent (fs : FS) (d b z : FPath) :
    clean_previous_build (clean_previous_build fs d b z) d b z
      = clean_previous_build fs d b z
    ∧ ((fsExists fs d = false ∧ fsExists fs b = false ∧ fsExists fs z = false) →
        clean_previous_build fs d b z = fs) := by
  constructor
  · exact clean_previous_build_of_absent _ d b z
      (fsExists_clean_dist fs d b z) (fsExists_clean_build fs d b z)
      (fsExists_clean_zip fs d b z)
  · intro h
    exact clean_previous_build_of_absent fs d b z h.1 h.2.1 h.2.2

/-- C7 witness: on a concrete dirty workspace (dist directory with a file
inside, plus the archive), running the cleaner twice equals running it
once; and on a concrete already-clean workspace the cleaner is the
identity, its hypothesis discharged by computation. -/
theorem clean_previous_build_idempotent_witness :
    (clean_previous_build
        (clean_previous_build
          [FSEntry.mk ["dist"] true, FSEntry.mk ["dist", "app.exe"] false,
           FSEntry.mk ["out.zip"] false, FSEntry.mk ["keep.txt"] false]
          ["dist"] ["build"] ["out.zip"])
        ["dist"] ["build"] ["out.zip"]
      = clean_previous_build
          [FSEntry.mk ["dist"] true, FSEntry.mk ["dist", "app.exe"] false,
           FSEntry.mk ["out.zip"] false, FSEntry.mk ["keep.txt"] false]
          ["dist"] ["build"] ["out.zip"])
    ∧ (fsExists [FSEntry.mk ["readme.txt"] false] ["dist"] = false
      ∧ fsExists [FSEntry.mk ["readme.txt"] false] ["build"] = false
      ∧ fsExists [FSEntry.mk ["readme.txt"] false] ["out.zip"] = false)
    ∧ clean_previous_build [FSEntry.mk ["readme.txt"] false] ["dist"] ["build"] ["out.zip"]
      = [FSEntry.mk ["readme.txt"] false] :=
  ⟨(clean_previous_build_idempotent
      [FSEntry.mk ["dist"] true, FSEntry.mk ["dist", "app.exe"] false,
       FSEntry.mk ["out.zip"] false, FSEntry.mk ["keep.txt"] false]
      ["dist"] ["build"] ["out.zip"]).1,
    by decide,
    (clean_previous_build_idempotent [FSEntry.mk ["readme.txt"] false]
      ["dist"] ["build"] ["out.zip"]).2 (by decide)⟩

/-! ## PyInstaller command builder (`_pyinstaller_command`) -/

/-- `DIST_NAME` from `portable/build_portable_windows.py`. -/
def DIST_NAME : String := "Ollama-OCR"

/-- Module-level inputs of the build script: `sys.executable`,
`PROJECT_ROOT`, `PORTABLE_DIR` and `os.pathsep`, each rendered as a
string.  Path joining (`/`) is rendered as appending `"/" ++ component`. -/
structure BuildEnv where
  pythonExe : String
  projectRoot : String
  portableDir : String
  pathSep : String

/-- `PORTABLE_DIR / "portable_launcher.py"`: the entry script handed to
PyInstaller. -/
def launcherScriptPath (env : BuildEnv) : String :=
  env.portableDir ++ "/portable_launcher.py"

/-- `_pyinstaller_command(dist_path, build_path, icon_path)` from
`portable/build_portable_windows.py`, with the filesystem's existence
test supplied as `fsHas`.  Mirrors the source token list: fixed flags,
`--add-data` mapping the app directory to `app`, two hidden imports,
conditionally `--icon <path>` when an icon path was given and exists,
and finally the launcher script path. -/
def pyinstaller_command (env : BuildEnv) (distPath buildPath : String)
    (iconPath : Option String) (fsHas : String → Bool) : List String :=
  let launcherPath := launcherScriptPath env
  let appDir := env.projectRoot ++ "/src/ollama_ocr"
  let addData := appDir ++ env.pathSep ++ "app"
  let base : List String :=
    [env.pythonExe, "-m", "PyInstaller", "--noconfirm", "--clean",
     "--distpath=" ++ distPath, "--workpath=" ++ buildPath,
     "--name", DIST_NAME,
     "--add-data", addData,
     "--hidden-import", "streamlit.web.bootstrap",
     "--hidden-import", "streamlit.runtime.scriptrunner.magic_funcs"]
  let withIcon : List String :=
    match iconPath with
    | some icon => if fsHas icon then base ++ ["--icon", icon] else base
    | none => base
  withIcon ++ [launcherPath]

theorem distpath_token_ne_icon (distPath : String) :
    "--distpath=" ++ distPath ≠ "--icon" := by
  intro h
  have hl := congrArg String.length h
  rw [String.length_append] at hl
  rw [show ("--distpath=" : String).length = 11 from rfl,
    show ("--icon" : String).length = 6 from rfl] at hl
  omega

theorem workpath_token_ne_icon (buildPath : String) :
    "--workpath=" ++ buildPath ≠ "--icon" := by
  intro h
  have hl := congrArg String.length h
  rw [String.length_append] at hl
  rw [show ("--workpath=" : String).length = 11 from rfl,
    show ("--icon" : String).length = 6 from rfl] at hl
  omega

theorem add_data_token_ne_icon (root sep : String) :
    root ++ "/src/ollama_ocr" ++ sep ++ "app" ≠ "--icon" := by
  intro h
  have hl := congrArg String.length h
  rw [String.length_append, String.length_append, String.length_append] at hl
  rw [show ("/src/ollama_ocr" : String).length = 15 from rfl,
    show ("app" : String).length = 3 from rfl,
    show ("--icon" : String).length = 6 from rfl] at hl
  omega

theorem launcher_token_ne_icon (env : BuildEnv) :
    launcherScriptPath env ≠ "--icon" := by
  intro h
  have hl := congrArg String.length h
  rw [launcherScriptPath, String.length_append] at hl
  rw [show ("/portable_launcher.py" : String).length = 21 from rfl,
    show ("--icon" : String).length = 6 from rfl] at hl
  omega

/-- The fixed (non-icon) part of the command never contains the
`--icon` token, as long as the interpreter path is not itself the
literal `"--icon"`. -/
theorem icon_not_mem_base (env : BuildEnv) (distPath buildPath : String)
    (hpy : env.pythonExe ≠ "--icon") :
    "--icon" ∉
      [env.pythonExe, "-m", "PyInstaller", "--noconfirm", "--clean",
       "--distpath=" ++ distPath, "--workpath=" ++ buildPath,
       "--name", DIST_NAME,
       "--add-data", env.projectRoot ++ "/src/ollama_ocr" ++ env.pathSep ++ "app",
       "--hidden-import", "streamlit.web.bootstrap",
       "--hidden-import", "streamlit.runtime.scriptrunner.magic_funcs"] := by
  intro hmem
  simp only [List.mem_cons, List.not_mem_nil, or_false] at hmem
  rcases hmem with h | h | h | h | h | h | h | h | h | h | h | h | h | h
  · exact hpy h.symm
  · exact absurd h (by decide)
  · exact absurd h (by decide)
  · exact absurd h (by decide)
  · exact absurd h (by decide)
  · exact distpath_token_ne_icon distPath h.symm
  · exact workpath_token_ne_icon buildPath h.symm
  · exact absurd h (by decide)
  · exact absurd h (by decide)
  · exact absurd h (by decide)
  · exact add_data_token_ne_icon env.projectRoot env.pathSep h.symm
  · exact absurd h (by decide)
  · exact absurd h (by decide)
  · exact absurd h (by decide)

/-- C1: for every build environment, dist/build path, optional icon path
and filesystem, the PyInstaller argument list ends with the entry-script
path (the portable launcher), and contains the `--icon` token exactly
when an icon path was supplied and exists on disk.  The one hypothesis
excludes an interpreter path that is itself the literal `"--icon"`. -/
theorem pyinstaller_command_last_arg_and_icon_flag (env : BuildEnv)
    (distPath buildPath : String) (iconPath : Option String)
    (fsHas : String → Bool) (hpy : env.pythonExe ≠ "--icon") :
    (pyinstaller_command env distPath buildPath iconPath fsHas).getLast?
      = some (launcherScriptPath env)
    ∧ ("--icon" ∈ pyinstaller_command env distPath buildPath iconPath fsHas
        ↔ ∃ icon, iconPath = some icon ∧ fsHas icon = true) := by
  have hbase := icon_not_mem_base env distPath buildPath hpy
  have hlaunch := launcher_token_ne_icon env
  constructor
  · unfold pyinstaller_command
    exact List.getLast?_concat _
  · unfold pyinstaller_command
    cases iconPath with
    | none =>
      simp only []
      constructor
      · intro hmem
        rcases List.mem_append.mp hmem with h | h
        · exact absurd h hbase
        · rw [List.mem_singleton] at h
          exact absurd h.symm hlaunch
      · rintro ⟨icon, h, -⟩
        cases h
    | some icon =>
      cases hfs : fsHas icon with
      | true =>
        simp only [hfs, if_true]
        constructor
        · intro _
          exact ⟨icon, rfl, hfs⟩
        · intro _
          exact List.mem_append.mpr (Or.inl (List.mem_append.mpr (Or.inr (by simp))))
      | false =>
        simp only [hfs, Bool.false_eq_true, if_false]
        constructor
        · intro hmem
          rcases List.mem_append.mp hmem with h | h
          · exact absurd h hbase
          · rw [List.mem_singleton] at h
            exact absurd h.symm hlaunch
        · rintro ⟨icon', h, hfs'⟩
          cases h
          rw [hfs] at hfs'
          cases hfs'

/-- C1 witness: with interpreter `python.exe`, repository root `C:/repo`,
icon path `missing.ico` and a filesystem on which nothing exists, the
command ends with the launcher script and contains no `--icon` token. -/
theorem pyinstaller_command_last_arg_and_icon_flag_witness :
    ((BuildEnv.mk "python.exe" "C:/repo" "C:/repo/portable" ";").pythonExe ≠ "--icon")
    ∧ ((pyinstaller_command (BuildEnv.mk "python.exe" "C:/repo" "C:/repo/portable" ";")
          "C:/repo/portable/dist" "C:/repo/portable/build" (some "missing.ico")
          (fun _ => false)).getLast?
        = some (launcherScriptPath (BuildEnv.mk "python.exe" "C:/repo" "C:/repo/portable" ";"))
      ∧ ("--icon" ∈ pyinstaller_command (BuildEnv.mk "python.exe" "C:/repo" "C:/repo/portable" ";")
            "C:/repo/portable/dist" "C:/repo/portable/build" (some "missing.ico")
            (fun _ => false)
          ↔ ∃ icon, (some "missing.ico" : Option String) = some icon ∧ (fun _ => false : String → Bool) icon = true)) :=
  ⟨by decide,
    pyinstaller_command_last_arg_and_icon_flag
      (BuildEnv.mk "python.exe" "C:/repo" "C:/repo/portable" ";")
      "C:/repo/portable/dist" "C:/repo/portable/build" (some "missing.ico")
      (fun _ => false) (by decide)⟩

/-! ## Dependency ensurer (`_ensure_pyinstaller`) -/

/-- `_ensure_pyinstaller()` from `portable/build_portable_windows.py`.
`pyinstallerImportable` abstracts whether `import PyInstaller` succeeds;
`installerExitCode` abstracts the exit status of the
`pip install pyinstaller` subprocess.  The result records whether the
installer subprocess was invoked, and the outcome: `subprocess.check_call`
raises `CalledProcessError(returncode)` exactly on a non-zero exit, and
`_ensure_pyinstaller` catches only `ImportError`, so that error escapes. -/
def ensure_pyinstaller (pyinstallerImportable : Bool)
    (installerExitCode : Nat) : Bool × Except Nat Unit :=
  if pyinstallerImportable then
    (false, Except.ok ())
  else if installerExitCode = 0 then
    (true, Except.ok ())
  else
    (true, Except.error installerExitCode)

/-- C8: the installer subprocess is invoked exactly when importing
PyInstaller fails, and the ensurer propagates an error exactly when the
installer was needed and exited non-zero (a zero exit, or a successful
import, yields a normal return). -/
theorem ensure_pyinstaller_invokes_iff_missing (pyinstallerImportable : Bool)
    (installerExitCode : Nat) :
    ((ensure_pyinstaller pyinstallerImportable installerExitCode).1
      = !pyinstallerImportable)
    ∧ ((ensure_pyinstaller pyinstallerImportable installerExitCode).2
        = Except.error installerExitCode
      ↔ pyinstallerImportable = false ∧ installerExitCode ≠ 0) := by
  cases pyinstallerImportable with
  | true => simp [ensure_pyinstaller]
  | false =>
    by_cases h : installerExitCode = 0
    · simp [ensure_pyinstaller, h]
    · simp [ensure_pyinstaller, h]

/-- C8 witness: with PyInstaller not importable and the installer exiting
with status 1, the installer is invoked and the error propagates. -/
theorem ensure_pyinstaller_invokes_iff_missing_witness :
    ((ensure_pyinstaller false 1).1 = !false)
    ∧ ((ensure_pyinstaller false 1).2 = Except.error 1
      ↔ false = false ∧ (1 : Nat) ≠ 0) :=
  ensure_pyinstaller_invokes_iff_missing false 1

/-! ## Launcher app locator (`_candidate_app_paths`, `_locate_streamlit_app`) -/

/-- `_candidate_app_paths(bundle_dir)` from
`portable/portable_launcher.py`: for each relative candidate
(`src/ollama_ocr/app.py`, then `app.py`), yield it joined to the bundle
directory and then to the bundle directory's parent (modelled as
`dropLast`). -/
def candidate_app_paths (bundleDir : FPath) : List FPath :=
  let relativeCandidates : List FPath :=
    [["src", "ollama_ocr", "app.py"], ["app.py"]]
  relativeCandidates.flatMap
    (fun c => [bundleDir ++ c, bundleDir.dropLast ++ c])

/-- The `for`-loop of `_locate_streamlit_app`: the first path in the
list that exists, if any. -/
def findExisting (fsHas : FPath → Bool) : List FPath → Option FPath
  | [] => none
  | p :: rest => if fsHas p then some p else findExisting fsHas rest

/-- The `FileNotFoundError` message raised by `_locate_streamlit_app`. -/
def appNotFoundMessage : String :=
  "Could not locate the Streamlit application. Expected app.py relative to the bundle."

/-- `_locate_streamlit_app(bundle_dir, logger)` from
`portable/portable_launcher.py`: return the first existing candidate;
if none exists, raise `FileNotFoundError` (modelled as `Except.error`
carrying the message).  Logging has no effect on the result. -/
def locate_streamlit_app (fsHas : FPath → Bool) (bundleDir : FPath) :
    Except String FPath :=
  match findExisting fsHas (candidate_app_paths bundleDir) with
  | some p => Except.ok p
  | none => Except.error appNotFoundMessage

theorem findExisting_eq_none_iff (fsHas : FPath → Bool) (l : List FPath) :
    findExisting fsHas l = none ↔ ∀ p ∈ l, fsHas p = false := by
  induction l with
  | nil => simp [findExisting]
  | cons p rest ih =>
    cases h : fsHas p with
    | true => simp [findExisting, h]
    | false => simp [findExisting, h, ih]

theorem findExisting_eq_some (fsHas : FPath → Bool) (l : List FPath)
    (p : FPath) (h : findExisting fsHas l = some p) :
    fsHas p = true
    ∧ ∃ pre post, l = pre ++ p :: post ∧ ∀ q ∈ pre, fsHas q = false := by
  induction l with
  | nil => cases h
  | cons q rest ih =>
    by_cases hq : fsHas q = true
    · rw [findExisting, if_pos hq, Option.some.injEq] at h
      subst h
      exact ⟨hq, [], rest, rfl, by simp⟩
    · rw [findExisting, if_neg hq] at h
      obtain ⟨hp, pre, post, hl, hpre⟩ := ih h
      refine ⟨hp, q :: pre, post, by rw [hl]; rfl, ?_⟩
      intro r hr
      rcases List.mem_cons.mp hr with h' | h'
      · subst h'
        exact Bool.not_eq_true _ ▸ Bool.of_not_eq_true hq
      · exact hpre r h'

/-- C6: the locator either raises the distinct `FileNotFoundError`
(exactly when no candidate path exists), or returns the first candidate,
in the source's candidate order, that exists: every candidate listed
before the returned one does not exist. -/
theorem locate_streamlit_app_first_existing_or_error (fsHas : FPath → Bool)
    (bundleDir : FPath) :
    (locate_streamlit_app fsHas bundleDir = Except.error appNotFoundMessage
      ↔ ∀ p ∈ candidate_app_paths bundleDir, fsHas p = false)
    ∧ (∀ p, locate_streamlit_app fsHas bundleDir = Except.ok p →
        fsHas p = true
        ∧ ∃ pre post, candidate_app_paths bundleDir = pre ++ p :: post
            ∧ ∀ q ∈ pre, fsHas q = false) := by
  constructor
  · unfold locate_streamlit_app
    cases hfind : findExisting fsHas (candidate_app_paths bundleDir) with
    | none =>
      rw [findExisting_eq_none_iff] at hfind
      exact iff_of_true rfl hfind
    | some q =>
      constructor
      · intro h
        cases h
      · intro hall
        rw [← findExisting_eq_none_iff fsHas (candidate_app_paths bundleDir)] at hall
        rw [hall] at hfind
        cases hfind
  · intro p hp
    unfold locate_streamlit_app at hp
    cases hfind : findExisting fsHas (candidate_app_paths bundleDir) with
    | none =>
      rw [hfind] at hp
      cases hp
    | some q =>
      rw [hfind] at hp
      cases hp
      exact findExisting_eq_some fsHas _ _ hfind

/-- C6 witness: on a bundle directory `["bundle"]` over an empty
filesystem, no candidate exists, and the locator raises exactly the
`FileNotFoundError`. -/
theorem locate_streamlit_app_first_existing_or_error_witness :
    locate_streamlit_app (fun _ => false) ["bundle"]
      = Except.error appNotFoundMessage :=
  (locate_streamlit_app_first_existing_or_error (fun _ => false) ["bundle"]).1.mpr
    (by intro p _; rfl)

/-! ## Launcher run step (`_launch_streamlit`, `main`) -/

/-- An observable launch-time side effect: spawning a subprocess in a
working directory, or mutating an environment variable. -/
inductive LaunchEffect where
  | runCommand (cmd : List String) (cwd : FPath)
  | setEnv (name value : String)
deriving DecidableEq, Repr

/-- `str(path)` for the model's component paths, as used when the path
is placed into a command vector. -/
def pathStr (p : FPath) : String :=
  String.intercalate "/" p

/-- `LaunchEffect.setEnv` recogniser. -/
def isSetEnv : LaunchEffect → Bool
  | LaunchEffect.setEnv _ _ => true
  | LaunchEffect.runCommand _ _ => false

/-- `_launch_streamlit(app_path, logger)` from
`portable/portable_launcher.py`: run
`[sys.executable, "-m", "streamlit", "run", str(app_path)]` with the
app's parent directory as working directory.  The effects are recorded
as a trace; no environment variable is touched anywhere in the source. -/
def launch_streamlit (pythonExe : String) (appPath : FPath) :
    List LaunchEffect :=
  [LaunchEffect.runCommand [pythonExe, "-m", "streamlit", "run", pathStr appPath]
    appPath.dropLast]

/-- `main()` from `portable/portable_launcher.py`: locate the app, then
launch Streamlit on it; a locator failure propagates. -/
def launcherMain (fsHas : FPath → Bool) (bundleDir : FPath)
    (pythonExe : String) : Except String (List LaunchEffect) :=
  match locate_streamlit_app fsHas bundleDir with
  | Except.ok appPath => Except.ok (launch_streamlit pythonExe appPath)
  | Except.error e => Except.error e

/-- The filesystem of the C5 counterexample: the bundle directory holds
exactly the entry script `app.py`. -/
def c5FS (p : FPath) : Bool :=
  p == ["bundle", "app.py"]

/-- C5: the claim asserts that the launcher sets environment defaults
(headless mode, usage statistics, UTF-8 mode) before invoking the
framework runner.  Counterexample: on a bundle directory containing
`app.py`, the launcher's entire effect trace is the single subprocess
invocation — it contains no environment-variable mutation at all. -/
theorem launcher_sets_no_env_defaults :
    launcherMain c5FS ["bundle"] "python.exe"
      = Except.ok [LaunchEffect.runCommand
          ["python.exe", "-m", "streamlit", "run", "bundle/app.py"] ["bundle"]]
    ∧ [LaunchEffect.runCommand
          ["python.exe", "-m", "streamlit", "run", "bundle/app.py"] ["bundle"]].any
        isSetEnv = false := by
  constructor
  · rfl
  · rfl

/-- C5 (amended): whenever the locator succeeds, the launcher performs
exactly one effect — it invokes the framework's command-line runner
(`python -m streamlit run <app path>`) with the located script path as
the sole argument after `run`, with the script's parent directory as
working directory — and its trace contains no environment-variable
mutation. -/
theorem launcher_runs_streamlit_runner (fsHas : FPath → Bool)
    (bundleDir : FPath) (pythonExe : String) (appPath : FPath)
    (h : locate_streamlit_app fsHas bundleDir = Except.ok appPath) :
    launcherMain fsHas bundleDir pythonExe
      = Except.ok [LaunchEffect.runCommand
          [pythonExe, "-m", "streamlit", "run", pathStr appPath]
          appPath.dropLast]
    ∧ [LaunchEffect.runCommand
          [pythonExe, "-m", "streamlit", "run", pathStr appPath]
          appPath.dropLast].any isSetEnv = false := by
  constructor
  · unfold launcherMain
    rw [h]
    rfl
  · simp [isSetEnv]

/-- C5 witness: on the concrete bundle with `app.py` present, the locator
succeeds and the launcher's sole effect is the `streamlit run`
subprocess, with no environment mutation. -/
theorem launcher_runs_streamlit_runner_witness :
    locate_streamlit_app c5FS ["bundle"] = Except.ok ["bundle", "app.py"]
    ∧ (launcherMain c5FS ["bundle"] "python.exe"
        = Except.ok [LaunchEffect.runCommand
            ["python.exe", "-m", "streamlit", "run", pathStr ["bundle", "app.py"]]
            (["bundle", "app.py"] : FPath).dropLast]
      ∧ [LaunchEffect.runCommand
            ["python.exe", "-m", "streamlit", "run", pathStr ["bundle", "app.py"]]
            (["bundle", "app.py"] : FPath).dropLast].any isSetEnv = false) :=
  ⟨by rfl,
    launcher_runs_streamlit_runner c5FS ["bundle"] "python.exe"
      ["bundle", "app.py"] (by rfl)⟩

/-! ## Archiver (`_create_zip`) -/

/-- `dist_folder.rglob("*")`: every object strictly below the folder
(files and directories alike), in filesystem order. -/
def rglobAll (fs : FS) (folder : FPath) : FS :=
  fs.filter (fun e => folder.isPrefixOf e.path && e.path != folder)

/-- `p.relative_to(base)` for a path known to lie under `base`: drop the
base components. -/
def relative_to (p base : FPath) : FPath :=
  p.drop base.length

/-- `_create_zip(dist_folder, zip_path)` from
`portable/build_portable_windows.py`: the archive is modelled as the
list of entry names written — one `archive.write(file, arcname)` per
`rglob` result, with the arcname relative to the folder's parent. -/
def create_zip (fs : FS) (distFolder : FPath) : List FPath :=
  (rglobAll fs distFolder).map (fun e => relative_to e.path distFolder.dropLast)

/-- The regular files strictly below a folder (used to state the claim's
`N`). -/
def filesUnder (fs : FS) (folder : FPath) : FS :=
  fs.filter (fun e => folder.isPrefixOf e.path && e.path != folder && !e.isDir)

/-- The directories strictly below a folder. -/
def dirsUnder (fs : FS) (folder : FPath) : FS :=
  fs.filter (fun e => folder.isPrefixOf e.path && e.path != folder && e.isDir)

theorem length_rglobAll_split (fs : FS) (folder : FPath) :
    (rglobAll fs folder).length
      = (filesUnder fs folder).length + (dirsUnder fs folder).length := by
  induction fs with
  | nil => rfl
  | cons e fs ih =>
    simp only [rglobAll, filesUnder, dirsUnder, List.filter_cons] at *
    by_cases hu : (folder.isPrefixOf e.path && e.path != folder) = true
    · cases hd : e.isDir with
      | true => simp [hu, hd, ih]; omega
      | false => simp [hu, hd, ih]; omega
    · simp only [Bool.not_eq_true] at hu
      simp [hu, ih]

/-- The filesystem of the C3 counterexample: the bundle folder
`dist/App` contains a subdirectory `sub` with a single file inside. -/
def c3FS : FS :=
  [FSEntry.mk ["dist", "App"] true,
   FSEntry.mk ["dist", "App", "sub"] true,
   FSEntry.mk ["dist", "App", "sub", "f.txt"] false]

/-- C3: the claim asserts that a bundle with `N` files yields an archive
with exactly `N` entries.  Counterexample: a bundle holding one file
inside one subdirectory (`N = 1`) yields two archive entries, because
`rglob("*")` also yields the directory itself, and `archive.write` is
called on it too. -/
theorem create_zip_counts_directories :
    (create_zip c3FS ["dist", "App"]).length = 2
    ∧ (filesUnder c3FS ["dist", "App"]).length = 1
    ∧ create_zip c3FS ["dist", "App"] = [["App", "sub"], ["App", "sub", "f.txt"]] := by
  decide

/-- C3 (amended): the archive holds exactly one entry per filesystem
object — file or directory — strictly below the bundle folder, and each
entry's path is that object's path relative to the bundle folder's
parent: prefixing the entry with the parent path recovers the object's
path, and every entry starts with the bundle's top-level folder name. -/
theorem create_zip_entry_shape (fs : FS) (parent : FPath) (name : String) :
    (create_zip fs (parent ++ [name])).length
      = (filesUnder fs (parent ++ [name])).length
        + (dirsUnder fs (parent ++ [name])).length
    ∧ ∀ rel ∈ create_zip fs (parent ++ [name]),
        rel.head? = some name
        ∧ ∃ e ∈ rglobAll fs (parent ++ [name]), parent ++ rel = e.path := by
  constructor
  · rw [create_zip, List.length_map]
    exact length_rglobAll_split fs (parent ++ [name])
  · intro rel hrel
    rw [create_zip, List.mem_map] at hrel
    obtain ⟨e, he, hrel⟩ := hrel
    have hpred := List.of_mem_filter he
    rw [Bool.and_eq_true] at hpred
    have hpre : parent ++ [name] <+: e.path := by
      rw [← List.isPrefixOf_iff_prefix]
      exact hpred.1
    obtain ⟨t, ht⟩ := hpre
    have hdrop : relative_to e.path (parent ++ [name]).dropLast = name :: t := by
      rw [relative_to, List.dropLast_concat, ← ht, List.append_assoc,
        List.singleton_append, List.drop_left]
    rw [hdrop] at hrel
    subst hrel
    refine ⟨rfl, e, he, ?_⟩
    rw [← ht, List.append_assoc, List.singleton_append]

/-- C3 amendment witness: in the concrete counterexample filesystem, the
entry `["App", "sub"]` starts with the bundle folder name `App`, and
prefixing it with the parent `["dist"]` recovers an object of the
bundle. -/
theorem create_zip_entry_shape_witness :
    (["App", "sub"] : FPath) ∈ create_zip c3FS (["dist"] ++ ["App"])
    ∧ ((["App", "sub"] : FPath).head? = some "App"
      ∧ ∃ e ∈ rglobAll c3FS (["dist"] ++ ["App"]), ["dist"] ++ ["App", "sub"] = e.path) :=
  ⟨by decide, (create_zip_entry_shape c3FS ["dist"] "App").2 ["App", "sub"] (by decide)⟩

/-! ## Support-file copier (`_copy_support_files`) -/

/-- `file_path.is_dir()`: the object exists and is a directory. -/
def fsIsDir (fs : FS) (p : FPath) : Bool :=
  fs.any (fun e => e.path == p && e.isDir)

/-- `file_path.name`: the final path component. -/
def pathName (p : FPath) : String :=
  p.getLastD ""

/-- `shutil.copy2(src, tgt)`: a regular file appears at the target path,
replacing any object previously there (file contents are not modelled). -/
def copy2 (fs : FS) (_src tgt : FPath) : FS :=
  FSEntry.mk tgt false :: fs.filter (fun e => e.path != tgt)

/-- `shutil.copytree(src, tgt)`: every object at or below the source
reappears re-rooted at the target. -/
def copytree (fs : FS) (src tgt : FPath) : FS :=
  fs ++ (fs.filter (fun e => src.isPrefixOf e.path)).map
    (fun e => FSEntry.mk (tgt ++ e.path.drop src.length) e.isDir)

/-- Loop body of `_copy_support_files` from
`portable/build_portable_windows.py`: if the path exists, copy it into
the dist folder under its own name (directories: remove a pre-existing
target, then copy the tree; files: `copy2`); otherwise do nothing. -/
def copy_support_one (distFolder : FPath) (fs : FS) (filePath : FPath) : FS :=
  if fsExists fs filePath then
    let target := distFolder ++ [pathName filePath]
    if fsIsDir fs filePath then
      let fs1 := if fsExists fs target then rmtree fs target else fs
      copytree fs1 filePath target
    else
      copy2 fs filePath target
  else
    fs

/-- `_copy_support_files(dist_folder, extra_files)`: fold the loop body
over the list of extra support paths. -/
def copy_support_files (distFolder : FPath) (extraFiles : List FPath) (fs : FS) : FS :=
  extraFiles.foldl (copy_support_one distFolder) fs

/-- C9: every extra support path that does not exist on disk is silently
skipped: when none of the given paths exists, `_copy_support_files`
leaves the filesystem exactly unchanged and (being a total function
whose only actions are guarded by the existence check) raises no
error. -/
theorem copy_support_files_skips_missing (distFolder : FPath)
    (extraFiles : List FPath) (fs : FS)
    (h : ∀ p ∈ extraFiles, fsExists fs p = false) :
    copy_support_files distFolder extraFiles fs = fs := by
  induction extraFiles with
  | nil => rfl
  | cons p rest ih =>
    have hp : fsExists fs p = false := h p (List.mem_cons_self p rest)
    have hstep : copy_support_one distFolder fs p = fs := by
      simp [copy_support_one, hp]
    show List.foldl (copy_support_one distFolder) (copy_support_one distFolder fs p) rest = fs
    rw [hstep]
    exact ih (fun q hq => h q (List.mem_cons_of_mem p hq))

/-- C9 witness: the bundle folder with a missing `logo_file.jpg` support
path — the build's actual auxiliary asset — is left unchanged. -/
theorem copy_support_files_skips_missing_witness :
    (∀ p ∈ [(["logo_file.jpg"] : FPath)],
      fsExists [FSEntry.mk ["dist", "App"] true] p = false)
    ∧ copy_support_files ["dist", "App"] [["logo_file.jpg"]]
        [FSEntry.mk ["dist", "App"] true]
      = [FSEntry.mk ["dist", "App"] true] :=
  ⟨by decide,
    copy_support_files_skips_missing ["dist", "App"] [["logo_file.jpg"]]
      [FSEntry.mk ["dist", "App"] true] (by decide)⟩

/-! ## Launcher batch files

Two generators exist in the repository.  `_write_launcher_batch` in
`portable/build_portable_windows.py` writes a fixed script (its
`textwrap.dedent` is a no-op because the template's first line is
unindented, so the interior lines keep their eight-space indent; the
whitespace-only final line is normalised away and `strip()` trims the
trailing newline).  `_write_launcher_batch` in
`src/briefcase/platforms/windows/msi/create.py` builds its script by
dedenting a template, right-stripping each line, joining with CRLF and
appending a final CRLF; the line list below is that template after
dedent (a twelve-space margin) for path arguments containing no newline
characters. -/

/-- The batch text written by the portable build's
`_write_launcher_batch(dist_folder)`. -/
def portableBatchContent : List Char :=
  ("@echo off\n        setlocal\n        cd /d \"%~dp0\"\n        if not exist logs mkdir logs\n        echo Starting Ollama OCR Portable...\n        call \"%~dp0"
    ++ DIST_NAME ++ ".exe\"\n        endlocal").toList

/-- The portable `_write_launcher_batch` writes `Start Ollama OCR.bat`
into the dist folder with the fixed content above. -/
def write_launcher_batch_portable (distFolder : FPath) : FPath × List Char :=
  (distFolder ++ ["Start Ollama OCR.bat"], portableBatchContent)

/-- The CRLF line separator used by the briefcase batch writer. -/
def crlf : List Char := ['\r', '\n']

/-- `"\r\n".join(lines)`. -/
def joinCRLF : List (List Char) → List Char
  | [] => []
  | [l] => l
  | l :: rest => l ++ crlf ++ joinCRLF rest

/-- The dedented, right-stripped lines of the briefcase batch template,
with the executable and log paths interpolated. -/
def briefcaseBatchLines (executable logPath : List Char) : List (List Char) :=
  [("@echo off").toList,
   ("setlocal").toList,
   [],
   ("set \"APP_EXECUTABLE=").toList ++ executable ++ ("\"").toList,
   ("set \"LOG_FILE=").toList ++ logPath ++ ("\"").toList,
   [],
   ("echo Launching %APP_EXECUTABLE% > \"%LOG_FILE%\"").toList,
   ("\"%APP_EXECUTABLE%\" %* >> \"%LOG_FILE%\" 2>&1").toList,
   ("set \"EXIT_CODE=%ERRORLEVEL%\"").toList,
   [],
   ("if %EXIT_CODE% neq 0 (").toList,
   ("    echo Application exited with code %EXIT_CODE%.").toList,
   ("    echo Log file: %LOG_FILE%").toList,
   ("    if errorlevel 1 pause").toList,
   (")").toList,
   [],
   ("exit /b %EXIT_CODE%").toList]

/-- The briefcase batch script: lines joined by CRLF plus a trailing
CRLF. -/
def briefcaseScript (executable logPath : List Char) : List Char :=
  joinCRLF (briefcaseBatchLines executable logPath) ++ crlf

/-- `_write_launcher_batch(executable, launcher_path, log_path)` from
`src/briefcase/platforms/windows/msi/create.py`: ensure the launcher
path's parent exists (not modelled), write the script to the launcher
path, and return the script.  The result records the written file
(path, content) and the returned string. -/
def write_launcher_batch (executable launcherPath logPath : List Char) :
    (List Char × List Char) × List Char :=
  ((launcherPath, briefcaseScript executable logPath),
    briefcaseScript executable logPath)

/-- An element of a CRLF-join is an infix of the join. -/
theorem infix_joinCRLF_of_mem {l : List Char} :
    ∀ {L : List (List Char)}, l ∈ L → l <:+: joinCRLF L := by
  intro L
  induction L with
  | nil => intro h; cases h
  | cons x rest ih =>
    intro h
    cases rest with
    | nil =>
      rw [List.mem_singleton] at h
      subst h
      exact List.infix_refl l
    | cons y rest' =>
      rcases List.mem_cons.mp h with h' | h'
      · subst h'
        show l <:+: l ++ crlf ++ joinCRLF (y :: rest')
        exact ⟨[], crlf ++ joinCRLF (y :: rest'), by simp⟩
      · obtain ⟨u, v, huv⟩ := ih h'
        show l <:+: x ++ crlf ++ joinCRLF (y :: rest')
        exact ⟨x ++ crlf ++ u, v, by rw [← huv]; simp⟩

/-- An infix of `s` is an infix of `s ++ t`. -/
theorem isInfix_append_left {α : Type} {l s t : List α} (h : l <:+: s) :
    l <:+: s ++ t := by
  obtain ⟨u, v, huv⟩ := h
  exact ⟨u, v ++ t, by rw [← huv]; simp⟩

/-- Any line of the briefcase template is an infix of the briefcase
script. -/
theorem line_isInfix_briefcaseScript {l : List Char}
    (executable logPath : List Char)
    (h : l ∈ briefcaseBatchLines executable logPath) :
    l <:+: briefcaseScript executable logPath :=
  isInfix_append_left (infix_joinCRLF_of_mem h)

/-- C4: the claim asserts that the post-build decorator's batch script
forwards all arguments via `%*` (and redirects output).  Counterexample:
the batch text generated by the portable build's `_write_launcher_batch`
contains no `%*` token at all, and no `>` character, so it can neither
forward arguments nor redirect output. -/
theorem portable_batch_no_arg_forwarding :
    ¬ ("%*".toList <:+: portableBatchContent)
    ∧ '>' ∉ portableBatchContent := by
  constructor
  · decide
  · decide

/-- A list avoiding `c` that is a prefix of `a ++ c :: b` already fits
inside `a`. -/
theorem prefix_stops_before_absent {α : Type} {c : α} :
    ∀ (pat a b : List α), c ∉ pat → pat <+: a ++ c :: b → pat <+: a := by
  intro pat
  induction pat with
  | nil =>
    intro a b _ _
    exact List.nil_prefix
  | cons p ps ih =>
    intro a b hc h
    cases a with
    | nil =>
      rw [List.nil_append, List.cons_prefix_cons] at h
      exact absurd (List.mem_cons.mpr (Or.inl h.1.symm)) hc
    | cons x a' =>
      rw [List.cons_append, List.cons_prefix_cons] at h
      rw [List.cons_prefix_cons]
      exact ⟨h.1, ih a' b (fun hm => hc (List.mem_cons_of_mem p hm)) h.2⟩

/-- An infix avoiding `c` cannot straddle an occurrence of `c`: an infix
of `a ++ c :: b` avoiding `c` is an infix of `a` or of `b`. -/
theorem isInfix_split_at_absent {α : Type} {c : α} :
    ∀ (pat a b : List α), c ∉ pat → pat <:+: a ++ c :: b →
      pat <:+: a ∨ pat <:+: b := by
  intro pat a
  induction a with
  | nil =>
    intro b hc h
    rw [List.nil_append, List.infix_cons_iff] at h
    rcases h with h | h
    · rcases List.prefix_cons_iff.mp h with h' | ⟨t, ht, -⟩
      · subst h'
        exact Or.inl List.nil_infix
      · subst ht
        exact absurd (List.mem_cons_self c t) hc
    · exact Or.inr h
  | cons x a' ih =>
    intro b hc h
    rw [List.cons_append, List.infix_cons_iff] at h
    rcases h with h | h
    · left
      have h' : pat <+: (x :: a') ++ c :: b := by rwa [List.cons_append]
      exact (prefix_stops_before_absent pat (x :: a') b hc h').isInfix
    · rcases ih b hc h with h' | h'
      · left
        obtain ⟨u, v, huv⟩ := h'
        exact ⟨x :: u, v, by rw [← huv]; rfl⟩
      · exact Or.inr h'

/-- An infix of a CRLF-join that avoids both CR and LF lies inside one of
the joined lines (or is empty). -/
theorem isInfix_joinCRLF_cases {pat : List Char}
    (hr : '\r' ∉ pat) (hn : '\n' ∉ pat) :
    ∀ L : List (List Char), pat <:+: joinCRLF L →
      pat = [] ∨ ∃ l ∈ L, pat <:+: l := by
  intro L
  induction L with
  | nil =>
    intro h
    exact Or.inl (List.infix_nil.mp h)
  | cons x rest ih =>
    cases rest with
    | nil =>
      intro h
      exact Or.inr ⟨x, List.mem_singleton.mpr rfl, h⟩
    | cons y rest' =>
      intro h
      have hjoin : joinCRLF (x :: y :: rest')
          = x ++ '\r' :: ('\n' :: joinCRLF (y :: rest')) := by
        show x ++ crlf ++ joinCRLF (y :: rest') = _
        rw [show crlf = '\r' :: ['\n'] from rfl, List.append_assoc]
        rfl
      rw [hjoin] at h
      rcases isInfix_split_at_absent pat x ('\n' :: joinCRLF (y :: rest')) hr h with h1 | h1
      · exact Or.inr ⟨x, List.mem_cons_self x _, h1⟩
      · have h2 : pat <:+: ([] : List Char) ++ '\n' :: joinCRLF (y :: rest') := by
          rwa [List.nil_append]
        rcases isInfix_split_at_absent pat [] (joinCRLF (y :: rest')) hn h2 with h3 | h3
        · exact Or.inl (List.infix_nil.mp h3)
        · rcases ih h3 with h4 | ⟨l, hl, h5⟩
          · exact Or.inl h4
          · exact Or.inr ⟨l, List.mem_cons_of_mem x hl, h5⟩

/-- The briefcase batch script contains no `mkdir`, for every pair of
path arguments that do not themselves contain `mkdir`: every fixed
template line is `mkdir`-free, and an occurrence cannot straddle a CRLF
separator, the `=` before an interpolated path, or the closing quote
after it. -/
theorem briefcase_script_no_mkdir (executable logPath : List Char)
    (hex : ¬ ("mkdir".toList <:+: executable))
    (hlog : ¬ ("mkdir".toList <:+: logPath)) :
    ¬ ("mkdir".toList <:+: briefcaseScript executable logPath) := by
  intro h
  have h' : "mkdir".toList
      <:+: joinCRLF (briefcaseBatchLines executable logPath) ++ '\r' :: ['\n'] := h
  rcases isInfix_split_at_absent _ _ _ (by decide) h' with h1 | h1
  · rcases isInfix_joinCRLF_cases (by decide) (by decide) _ h1 with h2 | ⟨l, hl, h3⟩
    · exact absurd h2 (by decide)
    · simp only [briefcaseBatchLines, List.mem_cons, List.not_mem_nil, or_false] at hl
      rcases hl with rfl | rfl | rfl | rfl | rfl | rfl | rfl | rfl | rfl | rfl | rfl | rfl | rfl | rfl | rfl | rfl | rfl
      all_goals try exact absurd h3 (by decide)
      · have heq : ("set \"APP_EXECUTABLE=".toList ++ executable ++ "\"".toList)
            = "set \"APP_EXECUTABLE".toList ++ '=' :: (executable ++ '"' :: []) := by
          rw [show ("set \"APP_EXECUTABLE=".toList : List Char)
              = "set \"APP_EXECUTABLE".toList ++ ['='] from by decide]
          rw [List.append_assoc, List.append_assoc]
          rfl
        rw [heq] at h3
        rcases isInfix_split_at_absent _ _ _ (by decide) h3 with h4 | h4
        · exact absurd h4 (by decide)
        · rcases isInfix_split_at_absent _ _ _ (by decide) h4 with h5 | h5
          · exact hex h5
          · exact absurd h5 (by decide)
      · have heq : ("set \"LOG_FILE=".toList ++ logPath ++ "\"".toList)
            = "set \"LOG_FILE".toList ++ '=' :: (logPath ++ '"' :: []) := by
          rw [show ("set \"LOG_FILE=".toList : List Char)
              = "set \"LOG_FILE".toList ++ ['='] from by decide]
          rw [List.append_assoc, List.append_assoc]
          rfl
        rw [heq] at h3
        rcases isInfix_split_at_absent _ _ _ (by decide) h3 with h4 | h4
        · exact absurd h4 (by decide)
        · rcases isInfix_split_at_absent _ _ _ (by decide) h4 with h5 | h5
          · exact hlog h5
          · exact absurd h5 (by decide)
  · exact absurd h1 (by decide)

/-- C4 (amended): the portable decorator's batch script ensures a `logs`
subdirectory exists next to the executable and invokes the bundled
executable, but forwards no arguments (no `%*` anywhere in its text),
performs no redirection (no `>` character), captures no exit code (no
`ERRORLEVEL`/`errorlevel` text) and never pauses (no `pause` text); the
briefcase writer's batch script forwards all arguments to the executable
with combined stdout/stderr redirected to the log file, captures the
exit code, and pauses on a non-zero exit code, but — whenever neither
path argument itself contains `mkdir` — contains no `mkdir`, so it
creates no logs directory. -/
theorem launcher_batch_scripts_features :
    ("if not exist logs mkdir logs".toList <:+: portableBatchContent)
    ∧ (("call \"%~dp0" ++ DIST_NAME ++ ".exe\"").toList <:+: portableBatchContent)
    ∧ ¬ ("%*".toList <:+: portableBatchContent)
    ∧ '>' ∉ portableBatchContent
    ∧ ¬ ("ERRORLEVEL".toList <:+: portableBatchContent)
    ∧ ¬ ("errorlevel".toList <:+: portableBatchContent)
    ∧ ¬ ("pause".toList <:+: portableBatchContent)
    ∧ (∀ executable logPath : List Char,
        ("\"%APP_EXECUTABLE%\" %* >> \"%LOG_FILE%\" 2>&1".toList
          <:+: briefcaseScript executable logPath)
        ∧ ("set \"EXIT_CODE=%ERRORLEVEL%\"".toList
          <:+: briefcaseScript executable logPath)
        ∧ ("if %EXIT_CODE% neq 0 (".toList
          <:+: briefcaseScript executable logPath)
        ∧ ("    if errorlevel 1 pause".toList
          <:+: briefcaseScript executable logPath))
    ∧ (∀ executable logPath : List Char,
        ¬ ("mkdir".toList <:+: executable) →
        ¬ ("mkdir".toList <:+: logPath) →
        ¬ ("mkdir".toList <:+: briefcaseScript executable logPath)) := by
  refine ⟨by decide, by decide, by decide, by decide, by decide, by decide, by decide,
    ?_, ?_⟩
  · intro executable logPath
    exact ⟨line_isInfix_briefcaseScript executable logPath (by simp [briefcaseBatchLines]),
      line_isInfix_briefcaseScript executable logPath (by simp [briefcaseBatchLines]),
      line_isInfix_briefcaseScript executable logPath (by simp [briefcaseBatchLines]),
      line_isInfix_briefcaseScript executable logPath (by simp [briefcaseBatchLines])⟩
  · exact briefcase_script_no_mkdir

/-- C4 witness: at the concrete path pair `C:/App/App.exe`,
`C:/App/logs/app.log` — neither containing `mkdir` — the briefcase
script contains no `mkdir`. -/
theorem launcher_batch_scripts_features_witness :
    ¬ ("mkdir".toList <:+: "C:/App/App.exe".toList)
    ∧ ¬ ("mkdir".toList <:+: "C:/App/logs/app.log".toList)
    ∧ ¬ ("mkdir".toList
        <:+: briefcaseScript "C:/App/App.exe".toList "C:/App/logs/app.log".toList) :=
  ⟨by decide, by decide,
    launcher_batch_scripts_features.2.2.2.2.2.2.2.2
      "C:/App/App.exe".toList "C:/App/logs/app.log".toList (by decide) (by decide)⟩

/-- Characters absent from all three parts are absent from
`a ++ e ++ b`. -/
theorem not_mem_append3 {c : Char} {a b e : List Char}
    (ha : c ∉ a) (hb : c ∉ b) (he : c ∉ e) : c ∉ a ++ e ++ b := by
  simp only [List.mem_append, not_or]
  exact ⟨⟨ha, he⟩, hb⟩

/-- C10: the briefcase `_write_launcher_batch` returns exactly the string
it writes to the launcher path; the written content does not depend on
the launcher path; the script is the CRLF-join of its lines plus a
trailing CRLF; and (for path arguments free of newline characters) no
line contains a CR or LF, so every line separator in the script is
exactly CRLF. -/
theorem write_launcher_batch_crlf_script
    (executable launcherPath logPath : List Char)
    (hex : '\n' ∉ executable ∧ '\r' ∉ executable)
    (hlog : '\n' ∉ logPath ∧ '\r' ∉ logPath) :
    ((write_launcher_batch executable launcherPath logPath).2
      = (write_launcher_batch executable launcherPath logPath).1.2)
    ∧ (∀ launcherPath', (write_launcher_batch executable launcherPath' logPath).2
        = (write_launcher_batch executable launcherPath logPath).2)
    ∧ ((write_launcher_batch executable launcherPath logPath).2
      = joinCRLF (briefcaseBatchLines executable logPath) ++ crlf)
    ∧ (crlf <:+ (write_launcher_batch executable launcherPath logPath).2)
    ∧ (∀ l ∈ briefcaseBatchLines executable logPath, '\n' ∉ l ∧ '\r' ∉ l) := by
  refine ⟨rfl, fun _ => rfl, rfl, List.suffix_append _ _, ?_⟩
  intro l hl
  simp only [briefcaseBatchLines, List.mem_cons, List.not_mem_nil, or_false] at hl
  rcases hl with rfl | rfl | rfl | rfl | rfl | rfl | rfl | rfl | rfl | rfl | rfl | rfl | rfl | rfl | rfl | rfl | rfl
  all_goals first
    | exact ⟨by decide, by decide⟩
    | exact ⟨not_mem_append3 (by decide) (by decide) hex.1,
        not_mem_append3 (by decide) (by decide) hex.2⟩
    | exact ⟨not_mem_append3 (by decide) (by decide) hlog.1,
        not_mem_append3 (by decide) (by decide) hlog.2⟩

/-- C10 witness: at concrete executable, launcher and log paths, the
hypotheses hold and the briefcase batch writer returns the written
CRLF-terminated script. -/
theorem write_launcher_batch_crlf_script_witness :
    (('\n' ∉ "C:/App/App.exe".toList ∧ '\r' ∉ "C:/App/App.exe".toList)
      ∧ ('\n' ∉ "C:/App/logs/app.log".toList ∧ '\r' ∉ "C:/App/logs/app.log".toList))
    ∧ (((write_launcher_batch "C:/App/App.exe".toList "C:/App/App.bat".toList
            "C:/App/logs/app.log".toList).2
        = (write_launcher_batch "C:/App/App.exe".toList "C:/App/App.bat".toList
            "C:/App/logs/app.log".toList).1.2)
      ∧ (∀ launcherPath', (write_launcher_batch "C:/App/App.exe".toList launcherPath'
            "C:/App/logs/app.log".toList).2
          = (write_launcher_batch "C:/App/App.exe".toList "C:/App/App.bat".toList
              "C:/App/logs/app.log".toList).2)
      ∧ ((write_launcher_batch "C:/App/App.exe".toList "C:/App/App.bat".toList
            "C:/App/logs/app.log".toList).2
        = joinCRLF (briefcaseBatchLines "C:/App/App.exe".toList
            "C:/App/logs/app.log".toList) ++ crlf)
      ∧ (crlf <:+ (write_launcher_batch "C:/App/App.exe".toList "C:/App/App.bat".toList
            "C:/App/logs/app.log".toList).2)
      ∧ (∀ l ∈ briefcaseBatchLines "C:/App/App.exe".toList "C:/App/logs/app.log".toList,
          '\n' ∉ l ∧ '\r' ∉ l)) :=
  ⟨⟨⟨by decide, by decide⟩, ⟨by decide, by decide⟩⟩,
    write_launcher_batch_crlf_script "C:/App/App.exe".toList "C:/App/App.bat".toList
      "C:/App/logs/app.log".toList ⟨by decide, by decide⟩ ⟨by decide, by decide⟩⟩

end OllamaOCR
